import Mathlib

/-!
Verification of the COMPAS Navigator stage-progression state machine.

This development shallowly embeds the session data model and the
stage-progression logic of the repository:

* the keyword progression policy `updateSessionStage`
  (netlify/functions/simple-api.js lines 56-90, and the identical copy in
  the Express server, part_001 lines 263-297);
* the model-assisted progression policy `analyzeAndProgressStage` and the
  session class with per-stage structured data
  (netlify/functions/test.js lines 110-347);
* the chat-turn pipelines of both servers, the upload route, and the two
  report generators `generateCOMPASReport` (part_001 lines 300-349) and
  `generateComprehensiveReport` (test.js lines 574-675).

Conventions of the embedding:

* JavaScript strings are Lean `String`s; `toLowerCase` is modelled on the
  ASCII range (all trigger phrases are ASCII, and ASCII lowercasing agrees
  with JavaScript on every ASCII character).
* `Date` values are natural numbers (milliseconds); each place the source
  calls `new Date()` the embedding takes the current time as an argument.
* JSON values returned by the analysis collaborator are the inductive
  `JsVal`; `JSON.parse` failure and a thrown collaborator error are the
  `AnalysisOutcome.threw` case.  Property access, truthiness and
  `Object.assign` follow the JavaScript semantics on these values
  (numeric coercion of non-number values in `>` comparisons is not
  modelled; no claim depends on it).
* In-place mutation of the session object becomes functional update; a
  thrown `TypeError` in the report generator becomes `Option.none`.
-/

/-! Basic string utilities mirroring the JavaScript operations used by the
source: `toLowerCase`, `includes`, template-literal stringification of
numbers, and `Array.prototype.join`. -/

/-- Decimal digit character, `48 + n` is the ASCII code of digit `n`. -/
def digitChar (n : Nat) : Char := Char.ofNat (48 + n)

/-- Fuel-driven decimal digit expansion (structural, so the kernel can
evaluate it). -/
def natDigsAux : Nat → Nat → List Char
  | 0, _ => []
  | fuel + 1, n =>
    if n < 10 then [digitChar n]
    else natDigsAux fuel (n / 10) ++ [digitChar (n % 10)]

/-- Decimal digits of a natural number, most significant first. -/
def natDigs (n : Nat) : List Char := natDigsAux (n + 1) n

/-- Decimal string of a natural number, as produced by JavaScript template
interpolation of a non-negative integer. -/
def natStr (n : Nat) : String := ⟨natDigs n⟩

/-- Decimal string of an integer. -/
def intStr (n : Int) : String :=
  if n < 0 then "-" ++ natStr n.natAbs else natStr n.natAbs

/-- Join a list of strings with a separator, `Array.prototype.join`. -/
def joinSep (sep : String) : List String → String
  | [] => ""
  | [s] => s
  | s :: rest => s ++ sep ++ joinSep sep rest

/-- ASCII lowercasing of one character; agrees with
`String.prototype.toLowerCase` on the ASCII range. -/
def lowerChar (c : Char) : Char :=
  if 65 ≤ c.toNat ∧ c.toNat ≤ 90 then Char.ofNat (c.toNat + 32) else c

/-- ASCII lowercasing of a string. -/
def lowerStr (s : String) : String := ⟨s.data.map lowerChar⟩

/-- Character-list version of `String.prototype.startsWith`. -/
def listStarts : List Char → List Char → Bool
  | [], _ => true
  | _ :: _, [] => false
  | a :: as, b :: bs => a == b && listStarts as bs

/-- Character-list version of `String.prototype.includes`: does `pat` occur
as a contiguous substring of `s`? -/
def listHas (s pat : List Char) : Bool :=
  match s with
  | [] => listStarts pat []
  | c :: rest => listStarts pat (c :: rest) || listHas rest pat

/-- String version of `String.prototype.includes`. -/
def strHas (s pat : String) : Bool := listHas s.data pat.data

/-- The apostrophe character (code 39), written via `Char.ofNat`. -/
def apos : Char := Char.ofNat 39

/-- One-character apostrophe string. -/
def aposS : String := ⟨[apos]⟩

/-! The six COMPAS stages.  Both servers declare the same `COMPAS_STAGES`
table of string constants; the session's `stage` field only ever holds one
of the six (constructor and every assignment use members of the table), so
the embedding makes it a closed enumeration together with the string key
`stageKey` used to index `stageData` and `stageStartTimes`. -/

/-- The six COMPAS stages (`COMPAS_STAGES` in both servers). -/
inductive Stage where
  | contextDiscovery
  | objectiveDefinition
  | methodIdeation
  | methodSelection
  | implementationPlan
  | complete
deriving DecidableEq

/-- The string constant each stage is represented by in the source. -/
def stageKey : Stage → String
  | .contextDiscovery => "context_discovery"
  | .objectiveDefinition => "objective_definition"
  | .methodIdeation => "method_ideation"
  | .methodSelection => "method_selection"
  | .implementationPlan => "implementation_plan"
  | .complete => "complete"

/-- Position of a stage in the fixed total order. -/
def stageIdx : Stage → Nat
  | .contextDiscovery => 0
  | .objectiveDefinition => 1
  | .methodIdeation => 2
  | .methodSelection => 3
  | .implementationPlan => 4
  | .complete => 5

/-- The `nextStage` column of the `STAGE_CRITERIA` table
(test.js lines 69-107); `none` for the terminal stage. -/
def nextStageOpt : Stage → Option Stage
  | .contextDiscovery => some .objectiveDefinition
  | .objectiveDefinition => some .methodIdeation
  | .methodIdeation => some .methodSelection
  | .methodSelection => some .implementationPlan
  | .implementationPlan => some .complete
  | .complete => none

/-! Keyword progression policy, `updateSessionStage`
(simple-api.js lines 56-90 and part_001 lines 263-297; the two copies are
textually identical in their trigger logic).  The function lowercases the
assistant response and switches on the current stage; a matching trigger
assigns the next stage, otherwise the stage is left alone. -/

/-- The trigger phrase `yes, that's right` (apostrophe spelled out). -/
def phraseYesRight : String := "yes, that" ++ aposS ++ "s right"

/-- Keyword progression policy from `updateSessionStage`: examine the
lowercased assistant response for stage-specific trigger substrings and
return the (possibly advanced) stage. -/
def updateSessionStage (stage : Stage) (response : String) : Stage :=
  let lowerResponse := lowerStr response
  match stage with
  | .contextDiscovery =>
      if strHas lowerResponse phraseYesRight || strHas lowerResponse "correct" then
        .objectiveDefinition
      else stage
  | .objectiveDefinition =>
      if strHas lowerResponse "root cause" || strHas lowerResponse "problem statement" then
        .methodIdeation
      else stage
  | .methodIdeation =>
      if strHas lowerResponse "method" &&
          (strHas lowerResponse "1." || strHas lowerResponse "2." || strHas lowerResponse "3.") then
        .methodSelection
      else stage
  | .methodSelection =>
      if strHas lowerResponse "implementation plan" then .implementationPlan else stage
  | .implementationPlan =>
      if strHas lowerResponse "performance measures" && strHas lowerResponse "learning questions" then
        .complete
      else stage
  | .complete => stage

/-! Conversation transcripts.  `addMessage(role, content)` pushes
`{role, content, timestamp: new Date()}`; the embedding takes the timestamp
as an argument. -/

/-- Message role, `user` or `assistant`. -/
inductive Role where
  | user
  | assistant
deriving DecidableEq

/-- One `conversationHistory` entry. -/
structure Message where
  role : Role
  content : String
  timestamp : Nat
deriving DecidableEq

/-- Uploaded-document descriptor built by the upload route
(part_001 lines 233-243). -/
structure Artifact where
  id : String
  filename : String
  path : String
  size : Nat
  mimetype : String
  uploadedAt : Nat
  owner : String
  sensitivity : String
  source : String
deriving DecidableEq

/-! The session class of simple-api.js (lines 23-53) and of the Express
server (part_001 lines 101-150).  Outside the constructor the source only
ever writes `stage` (via `setStage` / direct assignment), pushes to
`conversationHistory`, `context.facts`, `context.artifacts` and
`uploadedFiles`; the remaining fields keep their constructor values, and
the embedding gives them the element types the report generator reads them
at. -/

/-- Session state of the keyword-policy servers. -/
structure SimpleSession where
  sessionId : String
  stage : Stage
  conversationHistory : List Message
  contextFacts : List String
  contextArtifacts : List Artifact
  objective : Option String
  methods : List String
  chosenMethod : Option String
  implementationPlan : Option String
  performanceMeasures : List String
  learningQuestions : List String
  uploadedFiles : List Artifact
deriving DecidableEq

/-- The `SessionState` constructor of the keyword-policy servers. -/
def SimpleSession.create (sessionId : String) : SimpleSession :=
  { sessionId := sessionId
    stage := .contextDiscovery
    conversationHistory := []
    contextFacts := []
    contextArtifacts := []
    objective := none
    methods := []
    chosenMethod := none
    implementationPlan := none
    performanceMeasures := []
    learningQuestions := []
    uploadedFiles := [] }

/-- The `addMessage` method: append one entry to `conversationHistory`. -/
def addMessageS (s : SimpleSession) (role : Role) (content : String) (timestamp : Nat) :
    SimpleSession :=
  { s with conversationHistory := s.conversationHistory ++ [⟨role, content, timestamp⟩] }

/-- In-place form of the keyword policy: `updateSessionStage(session,
response)` mutates only `session.stage`. -/
def updateSessionStageS (s : SimpleSession) (response : String) : SimpleSession :=
  { s with stage := updateSessionStage s.stage response }

/-- Outcome of the external completion call: the assistant text, or a
thrown error (`CollaboratorUnavailable`). -/
inductive ChatOutcome where
  | reply (text : String)
  | failed
deriving DecidableEq

/-- Response of the keyword-policy chat route: the 200 payload
(`message`, `stage`, ...) or the 500 error response. -/
inductive ChatResponse where
  | ok (message : String) (stage : Stage)
  | serverError
deriving DecidableEq

/-- One chat turn of the keyword-policy servers
(part_001 lines 183-224, simple-api.js lines 153-199): append the user
message, call the completion collaborator, and on success append the
assistant message and run the keyword policy; on a thrown completion call
answer with the 500 error (part_001 catches it in the route, simple-api in
the outer handler — the session effects are identical). -/
def chatTurnKeyword (s : SimpleSession) (message : String) (outcome : ChatOutcome)
    (t1 t2 : Nat) : SimpleSession × ChatResponse :=
  let s1 := addMessageS s .user message t1
  match outcome with
  | .failed => (s1, .serverError)
  | .reply assistantMessage =>
      let s2 := addMessageS s1 .assistant assistantMessage t2
      let s3 := updateSessionStageS s2 assistantMessage
      (s3, .ok assistantMessage s3.stage)

/-- The upload route (part_001 lines 227-249): push the artifact onto
`context.artifacts` and `uploadedFiles`. -/
def uploadArtifact (s : SimpleSession) (a : Artifact) : SimpleSession :=
  { s with contextArtifacts := s.contextArtifacts ++ [a]
           uploadedFiles := s.uploadedFiles ++ [a] }

/-- JavaScript truthiness fallback `x || dflt` for a nullable string
field. -/
def truthyStr (o : Option String) (dflt : String) : String :=
  match o with
  | some s => if s = "" then dflt else s
  | none => dflt

/-- Report generator `generateCOMPASReport` of the Express server
(part_001 lines 300-349): a pure projection of the session into Markdown
text. -/
def generateCOMPASReport (session : SimpleSession) : String :=
  let challengeTitle := truthyStr session.objective "Nonprofit Challenge"
  "## COMPAS Report – " ++ challengeTitle ++ "\n\n"
  ++ "### 0. Data / Context to Supply AI\n"
  ++ "| Artifact | Current format | Owner | Prep needed | Upload method |\n"
  ++ "|----------|----------------|-------|-------------|---------------|\n"
  ++ String.join (session.contextArtifacts.map (fun artifact =>
        "| " ++ artifact.filename ++ " | " ++ artifact.mimetype ++ " | " ++ artifact.owner
        ++ " | " ++ (if artifact.sensitivity = "high" then "Redact PII" else "None")
        ++ " | " ++ artifact.source ++ " |\n"))
  ++ "\n### 1. Context (summary)\n"
  ++ String.join (session.contextFacts.map (fun fact => "- " ++ fact ++ "\n"))
  ++ "\n### 2. Objective (root problem)\n"
  ++ "- " ++ truthyStr session.objective "To be defined" ++ "\n"
  ++ "\n### 3. Chosen Method(s)\n"
  ++ "- " ++ truthyStr session.chosenMethod "To be selected" ++ "\n"
  ++ "\n### 4. Implementation Plan\n"
  ++ (match session.implementationPlan with
      | some p =>
          if p = "" then ""
          else "| Step | Owner | When | Notes |\n|------|-------|------|-------|\n"
      | none => "")
  ++ "\n### 5. Performance Measures\n"
  ++ String.join (session.performanceMeasures.map (fun measure => "- " ++ measure ++ "\n"))
  ++ "\n### 6. Learning Questions\n"
  ++ String.join (session.learningQuestions.map (fun question => "- " ++ question ++ "\n"))

/-- Operations a keyword-policy session is subjected to over its lifetime:
chat turns, uploads, and report requests. -/
inductive SimpleOp where
  | chat (message : String) (outcome : ChatOutcome) (t1 t2 : Nat)
  | upload (a : Artifact)
  | reportRequest
deriving DecidableEq

/-- Session effect of one operation; the report route only reads the
session. -/
def applySimpleOp (s : SimpleSession) (op : SimpleOp) : SimpleSession :=
  match op with
  | .chat message outcome t1 t2 => (chatTurnKeyword s message outcome t1 t2).1
  | .upload a => uploadArtifact s a
  | .reportRequest => s

/-- Run a sequence of operations. -/
def runSimpleOps (s : SimpleSession) : List SimpleOp → SimpleSession
  | [] => s
  | op :: rest => runSimpleOps (applySimpleOp s op) rest

/-- The sequence of stage positions observed over a run (initial state
included). -/
def traceSimple (s : SimpleSession) : List SimpleOp → List Nat
  | [] => [stageIdx s.stage]
  | op :: rest => stageIdx s.stage :: traceSimple (applySimpleOp s op) rest

example : updateSessionStage .contextDiscovery ("Yes, that" ++ aposS ++ "s right.")
    = .objectiveDefinition := by decide

example : updateSessionStage .contextDiscovery "Let us explore." = .contextDiscovery := by decide

/-! JSON values produced by `JSON.parse` on the analysis collaborator's
output (test.js line 314), together with the JavaScript operations the
source applies to them: property access, truthiness, `Object.assign`, and
template-literal stringification. -/

/-- A parsed JSON value. -/
inductive JsVal where
  | vstr : String → JsVal
  | vnum : Int → JsVal
  | vbool : Bool → JsVal
  | vnull : JsVal
  | varr : List JsVal → JsVal
  | vobj : List (String × JsVal) → JsVal

/-- Association-list lookup (JavaScript property read on an object). -/
def lookupAssoc {β : Type} : List (String × β) → String → Option β
  | [], _ => none
  | (k', v) :: rest, k => if k' = k then some v else lookupAssoc rest k

/-- Association-list update: overwrite the existing binding in place, or
append a new one — the order JavaScript objects keep their keys in. -/
def setAssoc {β : Type} : List (String × β) → String → β → List (String × β)
  | [], k, v => [(k, v)]
  | (k', v') :: rest, k, v =>
      if k' = k then (k, v) :: rest else (k', v') :: setAssoc rest k v

/-- JavaScript truthiness of a JSON value. -/
def jsTruthy : JsVal → Bool
  | .vnull => false
  | .vbool b => b
  | .vnum n => n ≠ 0
  | .vstr s => s ≠ ""
  | .varr _ => true
  | .vobj _ => true

/-- Property read `v.k` on a non-null value: a present object key gives its
value, everything else gives `undefined` (here `none`).  Reads on `null`
throw and are handled at each use site. -/
def jsMember (v : JsVal) (k : String) : Option JsVal :=
  match v with
  | .vobj kvs => lookupAssoc kvs k
  | _ => none

/-- Truthiness of a possibly-`undefined` read. -/
def optTruthy (o : Option JsVal) : Bool :=
  match o with
  | some v => jsTruthy v
  | none => false

/-- The own enumerable properties `Object.assign` copies from a source
value: an object's key/value pairs; index properties for strings and
arrays; nothing for primitives. -/
def sourceProps : JsVal → List (String × JsVal)
  | .vobj kvs => kvs
  | .vstr s => (List.range s.data.length).zip (s.data.map (fun c => JsVal.vstr ⟨[c]⟩))
      |>.map (fun p => (natStr p.1, p.2))
  | .varr xs => (List.range xs.length).zip xs |>.map (fun p => (natStr p.1, p.2))
  | _ => []

/-- A per-stage structured record: a JavaScript object, modelled as an
ordered association list. -/
def StageRecord : Type := List (String × JsVal)

/-- `Object.assign(target, source)`: copy every own enumerable property of
the source into the target, in source order. -/
def assignProps (target : StageRecord) (source : JsVal) : StageRecord :=
  (sourceProps source).foldl (fun acc kv => setAssoc acc kv.1 kv.2) target

/-! The session class of test.js (lines 110-169): stage, transcript, the
`stageData` table keyed by the stage strings, and `progressMetrics`. -/

/-- Session state of the assisted-policy server. -/
structure RichSession where
  sessionId : String
  stage : Stage
  conversationHistory : List Message
  stageData : List (String × StageRecord)
  progressStartTime : Nat
  stageStartTimes : List (String × Nat)

/-- The constructor's `stageData` table (test.js lines 115-148). -/
def initialStageData : List (String × StageRecord) :=
  [ ("context_discovery",
      [("situationDescription", .vstr ""), ("stakeholders", .varr []),
       ("constraints", .varr []), ("artifacts", .varr []), ("completed", .vbool false)]),
    ("objective_definition",
      [("rootProblem", .vstr ""), ("problemStatement", .vstr ""), ("completed", .vbool false)]),
    ("method_ideation",
      [("methods", .varr []), ("completed", .vbool false)]),
    ("method_selection",
      [("chosenMethod", .vnull), ("methodRationale", .vstr ""), ("completed", .vbool false)]),
    ("implementation_plan",
      [("implementationSteps", .varr []), ("timeline", .vstr ""),
       ("performanceMeasures", .varr []), ("learningQuestions", .varr []),
       ("completed", .vbool false)]),
    ("complete",
      [("finalReport", .vstr ""), ("completed", .vbool false)]) ]

/-- The `SessionState` constructor of test.js. -/
def RichSession.create (sessionId : String) (now : Nat) : RichSession :=
  { sessionId := sessionId
    stage := .contextDiscovery
    conversationHistory := []
    stageData := initialStageData
    progressStartTime := now
    stageStartTimes := [("context_discovery", now)] }

/-- The `addMessage` method of test.js. -/
def addMessageR (s : RichSession) (role : Role) (content : String) (timestamp : Nat) :
    RichSession :=
  { s with conversationHistory := s.conversationHistory ++ [⟨role, content, timestamp⟩] }

/-- The `updateStageData` method (test.js lines 161-165): if the table has
a record under the given key (stage records are objects, hence truthy),
`Object.assign` the data into it; otherwise do nothing. -/
def updateStageData (s : RichSession) (stage : String) (data : JsVal) : RichSession :=
  match lookupAssoc s.stageData stage with
  | some record => { s with stageData := setAssoc s.stageData stage (assignProps record data) }
  | none => s

/-- Outcome of the analysis collaborator call plus `JSON.parse`: a parsed
JSON value, or a throw (network/API error, or non-JSON completion text). -/
inductive AnalysisOutcome where
  | parsed (v : JsVal)
  | threw

/-- The degraded analysis-failure indicator returned from the catch block
of `analyzeAndProgressStage` (test.js lines 339-345). -/
def analysisFailureResult : JsVal :=
  .vobj [("shouldProgress", .vbool false), ("progressReason", .vstr "Analysis error"),
         ("extractedData", .vobj []), ("completionPercentage", .vnum 0),
         ("missingInformation", .varr [])]

/-- Stage advancement inside `analyzeAndProgressStage`
(test.js lines 322-334): look up `nextStage` in `STAGE_CRITERIA`; when it
is non-null, mark the current stage's record completed, assign the next
stage, and record its start time. -/
def advanceRich (s : RichSession) (now : Nat) : RichSession :=
  match nextStageOpt s.stage with
  | some nextStage =>
      let s1 := updateStageData s (stageKey s.stage) (.vobj [("completed", .vbool true)])
      { s1 with stage := nextStage
                stageStartTimes := setAssoc s1.stageStartTimes (stageKey nextStage) now }
  | none => s

/-- The `if (analysis.extractedData)` block of `analyzeAndProgressStage`
(test.js lines 317-319): merge a truthy `extractedData` into the current
stage's record. -/
def mergePhase (s : RichSession) (analysis : JsVal) : RichSession :=
  match jsMember analysis "extractedData" with
  | some extracted =>
      if jsTruthy extracted then updateStageData s (stageKey s.stage) extracted else s
  | none => s

/-- The `if (analysis.shouldProgress)` block of `analyzeAndProgressStage`
(test.js lines 322-334). -/
def progressPhase (s : RichSession) (analysis : JsVal) (now : Nat) : RichSession :=
  if optTruthy (jsMember analysis "shouldProgress") then advanceRich s now else s

/-- The assisted progression policy `analyzeAndProgressStage`
(test.js lines 281-347), continued: the merge phase runs first, the
progress phase second, both reading the same parsed analysis value. -/
def analyzeAndProgressStage (s : RichSession) (outcome : AnalysisOutcome) (now : Nat) :
    RichSession × JsVal :=
  match outcome with
  | .threw => (s, analysisFailureResult)
  | .parsed analysis =>
      match analysis with
      | .vnull => (s, analysisFailureResult)
      | _ => (progressPhase (mergePhase s analysis) analysis now, analysis)

/-- Response of the assisted chat route: the 200 payload with the
assistant message, the (possibly advanced) stage and the analysis value,
or the 500 error response. -/
inductive RichChatResponse where
  | ok (message : String) (stage : Stage) (analysis : JsVal)
  | serverError

/-- One chat turn of the assisted-policy server (test.js lines 410-457):
append the user message, call the completion collaborator (a throw is
caught by the outer handler as a 500 with only the user entry recorded),
append the assistant message, then run `analyzeAndProgressStage`. -/
def chatTurnAssisted (s : RichSession) (message : String) (outcome : ChatOutcome)
    (analysisOutcome : AnalysisOutcome) (t1 t2 now : Nat) :
    RichSession × RichChatResponse :=
  let s1 := addMessageR s .user message t1
  match outcome with
  | .failed => (s1, .serverError)
  | .reply assistantMessage =>
      let s2 := addMessageR s1 .assistant assistantMessage t2
      let result := analyzeAndProgressStage s2 analysisOutcome now
      (result.1, .ok assistantMessage result.1.stage result.2)

/-- Operations an assisted-policy session is subjected to: chat turns and
report requests (this server has no upload route). -/
inductive RichOp where
  | chat (message : String) (outcome : ChatOutcome) (analysisOutcome : AnalysisOutcome)
      (t1 t2 now : Nat)
  | reportRequest

/-- Session effect of one operation; report generation only reads the
session. -/
def applyRichOp (s : RichSession) (op : RichOp) : RichSession :=
  match op with
  | .chat message outcome analysisOutcome t1 t2 now =>
      (chatTurnAssisted s message outcome analysisOutcome t1 t2 now).1
  | .reportRequest => s

/-- Run a sequence of operations. -/
def runRichOps (s : RichSession) : List RichOp → RichSession
  | [] => s
  | op :: rest => runRichOps (applyRichOp s op) rest

/-- The sequence of stage positions observed over a run. -/
def traceRich (s : RichSession) : List RichOp → List Nat
  | [] => [stageIdx s.stage]
  | op :: rest => stageIdx s.stage :: traceRich (applyRichOp s op) rest

/-! Report generation for the assisted-policy server:
`generateComprehensiveReport` (test.js lines 574-675).  The template
literal is a pure computation over `stageData` and
`progressMetrics.startTime`, plus two uses of `new Date()` (the locale
date string and the elapsed-minutes figure).  A `TypeError` thrown by a
property read on `undefined`/`null`, or by `.map` on a non-array, is
modelled as `Option.none`. -/

/-- A property read result: a defined JSON value, or JavaScript
`undefined`. -/
inductive FieldVal where
  | defined (v : JsVal)
  | undefinedVal

/-- Property read on a stage record (an object, so it never throws). -/
def fieldOf (record : StageRecord) (k : String) : FieldVal :=
  (lookupAssoc record k).elim .undefinedVal .defined

mutual
/-- Template-literal conversion `String(v)` of a JSON value. -/
def jsToString : JsVal → String
  | .vstr s => s
  | .vnum n => intStr n
  | .vbool true => "true"
  | .vbool false => "false"
  | .vnull => "null"
  | .varr xs => joinSep "," (arrElemStrs xs)
  | .vobj _ => "[object Object]"

/-- Element conversion inside `Array.prototype.join`, where a `null`
element becomes the empty string. -/
def arrElemStrs : List JsVal → List String
  | [] => []
  | .vnull :: xs => "" :: arrElemStrs xs
  | x :: xs => jsToString x :: arrElemStrs xs
end

/-- Interpolation `${x}` of a read result (`undefined` prints as the word
undefined). -/
def interpField : FieldVal → String
  | .defined v => jsToString v
  | .undefinedVal => "undefined"

/-- Truthiness fallback `${x || dflt}` of a read result. -/
def orField (x : FieldVal) (dflt : String) : String :=
  match x with
  | .defined v => if jsTruthy v then jsToString v else dflt
  | .undefinedVal => dflt

/-- Truthiness of a read result. -/
def fieldTruthy : FieldVal → Bool
  | .defined v => jsTruthy v
  | .undefinedVal => false

/-- The test `x.length > 0`: reading `.length` of `undefined` or `null`
throws (`none`); arrays and strings give their length; other values give
`undefined`, and `undefined > 0` is false. -/
def lengthPos : FieldVal → Option Bool
  | .undefinedVal => none
  | .defined .vnull => none
  | .defined (.varr xs) => some (decide (0 < xs.length))
  | .defined (.vstr s) => some (decide (0 < s.data.length))
  | .defined (.vobj kvs) =>
      some (match lookupAssoc kvs "length" with
            | some (.vnum n) => decide (0 < n)
            | _ => false)
  | .defined _ => some false

/-- The call `x.map(f).join(sep)`; `.map` exists only on arrays, anything
else throws. -/
def mapJoin : FieldVal → (JsVal → Option String) → String → Option String
  | .defined (.varr xs), f, sep => (xs.mapM f).map (joinSep sep)
  | _, _, _ => none

/-- The call `x.map((el, i) => ...).join(sep)` with the element index. -/
def mapJoinIdx : FieldVal → (Nat → JsVal → Option String) → String → Option String
  | .defined (.varr xs), f, sep => ((xs.enum).mapM (fun p => f p.1 p.2)).map (joinSep sep)
  | _, _, _ => none

/-- Property read on an array element; a `null` element throws. -/
def elemField : JsVal → String → Option FieldVal
  | .vnull, _ => none
  | .vobj kvs, k => some ((lookupAssoc kvs k).elim .undefinedVal .defined)
  | _, _ => some .undefinedVal

/-- Interpolation `${el.k || dflt}` on an array element. -/
def orElem (element : JsVal) (k : String) (dflt : String) : Option String :=
  (elemField element k).map (fun x => orField x dflt)

/-- Elapsed whole minutes, `Math.round((now - startTime) / 60000)`
(rounding half toward positive infinity is floor of the value plus one
half). -/
def sessionMinutes (startTime now : Nat) : Int :=
  Int.fdiv ((now : Int) - (startTime : Int) + 30000) 60000

/-- The report generator `generateComprehensiveReport` of test.js.  It
reads only `stageData` and `progressMetrics.startTime` from the session;
`now` and `dateString` stand for the two `new Date()` uses inside the
template. -/
def generateComprehensiveReport (session : RichSession) (now : Nat) (dateString : String) :
    Option String := do
  let contextData ← lookupAssoc session.stageData "context_discovery"
  let objectiveData ← lookupAssoc session.stageData "objective_definition"
  let methodData ← lookupAssoc session.stageData "method_ideation"
  let selectionData ← lookupAssoc session.stageData "method_selection"
  let planData ← lookupAssoc session.stageData "implementation_plan"
  let minutes := intStr (sessionMinutes session.progressStartTime now)
  let stakeholdersBlock ← do
    let pos ← lengthPos (fieldOf contextData "stakeholders")
    if pos then
      mapJoin (fieldOf contextData "stakeholders") (fun s => some ("• " ++ jsToString s)) "\n"
    else pure "• Not specified"
  let constraintsBlock ← do
    let pos ← lengthPos (fieldOf contextData "constraints")
    if pos then
      mapJoin (fieldOf contextData "constraints") (fun c => some ("• " ++ jsToString c)) "\n"
    else pure "• Not specified"
  let artifactsBlock ← do
    let pos ← lengthPos (fieldOf contextData "artifacts")
    if pos then
      mapJoin (fieldOf contextData "artifacts")
        (fun a => do
          let f ← elemField a "filename"
          let o ← elemField a "owner"
          pure ("• " ++ interpField f ++ " (" ++ interpField o ++ ")")) "\n"
    else pure "• No artifacts uploaded"
  let methodsBlock ← do
    let pos ← lengthPos (fieldOf methodData "methods")
    if pos then
      mapJoinIdx (fieldOf methodData "methods")
        (fun i m => do
          let nm ← orElem m "name" ("Option " ++ natStr (i + 1))
          let de ← orElem m "description" "Not provided"
          let ra ← orElem m "rationale" "Not provided"
          let cx ← orElem m "complexity" "Not assessed"
          pure ("\n### Method " ++ natStr (i + 1) ++ ": " ++ nm
            ++ "\n**Approach:** " ++ de ++ "\n**Rationale:** " ++ ra
            ++ "\n**Implementation Complexity:** " ++ cx ++ "\n")) "\n"
    else pure "No methods proposed"
  let selectedBlock ← do
    match fieldOf selectionData "chosenMethod" with
    | .defined cm =>
        if jsTruthy cm then do
          let nm ← elemField cm "name"
          pure ("\n**Chosen Approach:** " ++ orField nm "Selected method"
            ++ "\n**Selection Rationale:** "
            ++ orField (fieldOf selectionData "methodRationale") "Not provided" ++ "\n")
        else pure "No method selected yet"
    | .undefinedVal => pure "No method selected yet"
  let planBlock ← do
    let pos ← lengthPos (fieldOf planData "implementationSteps")
    if pos then do
      let steps ← mapJoinIdx (fieldOf planData "implementationSteps")
        (fun i step => do
          let ti ← orElem step "title" ("Step " ++ natStr (i + 1))
          let ow ← orElem step "owner" "Not assigned"
          let tl ← orElem step "timeline" "Not specified"
          let de ← orElem step "description" "Not provided"
          let re ← orElem step "resources" "Not specified"
          pure ("\n" ++ natStr (i + 1) ++ ". **" ++ ti ++ "**\n   - **Owner:** " ++ ow
            ++ "\n   - **Timeline:** " ++ tl ++ "\n   - **Description:** " ++ de
            ++ "\n   - **Resources:** " ++ re ++ "\n")) "\n"
      pure ("\n**Action Steps:**\n" ++ steps ++ "\n\n**Overall Timeline:**\n"
        ++ orField (fieldOf planData "timeline") "Not provided" ++ "\n")
    else pure "Implementation plan not yet developed"
  let measuresBlock ← do
    let pos ← lengthPos (fieldOf planData "performanceMeasures")
    if pos then do
      let metrics ← mapJoinIdx (fieldOf planData "performanceMeasures")
        (fun i measure => do
          let me ← orElem measure "metric" ("Metric " ++ natStr (i + 1))
          let ta ← orElem measure "target" "Not specified"
          let ba ← orElem measure "baseline" "Not specified"
          let co ← orElem measure "collection" "Not specified"
          let fr ← orElem measure "frequency" "Not specified"
          pure ("\n" ++ natStr (i + 1) ++ ". **" ++ me ++ "**\n   - **Target:** " ++ ta
            ++ "\n   - **Baseline:** " ++ ba ++ "\n   - **Collection Method:** " ++ co
            ++ "\n   - **Frequency:** " ++ fr ++ "\n")) "\n"
      pure ("\n**Key Metrics:**\n" ++ metrics ++ "\n")
    else pure "Success metrics not yet defined"
  let questionsBlock ← do
    let pos ← lengthPos (fieldOf planData "learningQuestions")
    if pos then do
      let qs ← mapJoin (fieldOf planData "learningQuestions")
        (fun q => some ("• " ++ jsToString q)) "\n"
      pure ("\n**Key Learning Questions:**\n" ++ qs ++ "\n")
    else pure "Learning questions not yet defined"
  pure ("# COMPAS Report – " ++ orField (fieldOf contextData "situationDescription") "Challenge Analysis"
    ++ "\n\n*Generated on " ++ dateString ++ " | Total Session Time: " ++ minutes
    ++ " minutes*\n\n## Executive Summary\n\nThis report provides a structured analysis and actionable solution for the identified nonprofit challenge using the COMPAS (Context, Objective, Method, Plan, Assessment) framework.\n\n## 1. Context Discovery\n\n**Challenge Description:**\n"
    ++ orField (fieldOf contextData "situationDescription") "Not provided"
    ++ "\n\n**Key Stakeholders:**\n" ++ stakeholdersBlock
    ++ "\n\n**Constraints & Limitations:**\n" ++ constraintsBlock
    ++ "\n\n**Supporting Artifacts:**\n" ++ artifactsBlock
    ++ "\n\n## 2. Objective Definition\n\n**Root Problem Identified:**\n"
    ++ orField (fieldOf objectiveData "rootProblem") "Not defined"
    ++ "\n\n**Problem Statement:**\n"
    ++ orField (fieldOf objectiveData "problemStatement") "Not provided"
    ++ "\n\n## 3. Method Analysis\n\n**Proposed Solutions:**\n" ++ methodsBlock
    ++ "\n\n**Selected Method:**\n" ++ selectedBlock
    ++ "\n\n## 4. Implementation Plan\n\n" ++ planBlock
    ++ "\n\n## 5. Performance Measures & Success Metrics\n\n" ++ measuresBlock
    ++ "\n\n## 6. Learning Questions & Iteration Plan\n\n" ++ questionsBlock
    ++ "\n\n**Next Steps for Implementation:**\n1. Review and validate this plan with key stakeholders\n2. Secure necessary resources and approvals\n3. Begin with the first implementation step\n4. Establish measurement and monitoring systems\n5. Schedule regular check-ins to assess progress\n\n---\n\n*This report was generated using the COMPAS Navigator framework, designed specifically for nonprofit organizations to transform challenges into actionable solutions.*")

/-! Shared lemmas about association lists, the session mutators, and the
single-step behaviour of both progression policies. -/

theorem lookupAssoc_setAssoc_self {β : Type} (m : List (String × β)) (k : String) (v : β) :
    lookupAssoc (setAssoc m k v) k = some v := by
  induction m with
  | nil => simp [setAssoc, lookupAssoc]
  | cons kv rest ih =>
      obtain ⟨k', v'⟩ := kv
      by_cases h : k' = k
      · simp [setAssoc, h, lookupAssoc]
      · simp [setAssoc, h, lookupAssoc, ih]

theorem lookupAssoc_setAssoc_ne {β : Type} (m : List (String × β)) (k k' : String) (v : β)
    (h : k' ≠ k) : lookupAssoc (setAssoc m k v) k' = lookupAssoc m k' := by
  have h' : ¬ k = k' := fun e => h e.symm
  induction m with
  | nil => simp [setAssoc, lookupAssoc, h']
  | cons kv rest ih =>
      obtain ⟨a, w⟩ := kv
      by_cases ha : a = k
      · subst ha
        simp [setAssoc, lookupAssoc, h']
      · simp only [setAssoc, ha, if_neg, ite_false]
        by_cases ha' : a = k'
        · simp [lookupAssoc, ha']
        · simp [lookupAssoc, ha', ih]

theorem lookupAssoc_foldl_setAssoc_ne {β : Type} (kvs : List (String × β))
    (m : List (String × β)) (k : String) (h : k ∉ kvs.map Prod.fst) :
    lookupAssoc (kvs.foldl (fun acc kv => setAssoc acc kv.1 kv.2) m) k = lookupAssoc m k := by
  induction kvs generalizing m with
  | nil => rfl
  | cons kv rest ih =>
      simp only [List.map_cons, List.mem_cons, not_or] at h
      rw [List.foldl_cons, ih _ h.2, lookupAssoc_setAssoc_ne _ _ _ _ h.1]

theorem lookupAssoc_assignProps_ne (record : StageRecord) (src : JsVal) (k : String)
    (h : k ∉ (sourceProps src).map Prod.fst) :
    lookupAssoc (assignProps record src) k = lookupAssoc record k :=
  lookupAssoc_foldl_setAssoc_ne (sourceProps src) record k h

theorem updateStageData_stage (s : RichSession) (k : String) (d : JsVal) :
    (updateStageData s k d).stage = s.stage := by
  unfold updateStageData
  split <;> rfl

theorem updateStageData_history (s : RichSession) (k : String) (d : JsVal) :
    (updateStageData s k d).conversationHistory = s.conversationHistory := by
  unfold updateStageData
  split <;> rfl

theorem addMessageR_stage (s : RichSession) (role : Role) (c : String) (t : Nat) :
    (addMessageR s role c t).stage = s.stage := rfl

theorem addMessageR_stageData (s : RichSession) (role : Role) (c : String) (t : Nat) :
    (addMessageR s role c t).stageData = s.stageData := rfl

theorem stage_mergePhase (s : RichSession) (v : JsVal) :
    (mergePhase s v).stage = s.stage := by
  unfold mergePhase
  split
  · split
    · exact updateStageData_stage _ _ _
    · rfl
  · rfl

theorem stage_advanceRich (s : RichSession) (now : Nat) :
    (advanceRich s now).stage = s.stage ∨
      nextStageOpt s.stage = some ((advanceRich s now).stage) := by
  unfold advanceRich
  cases h : nextStageOpt s.stage with
  | none => exact Or.inl rfl
  | some n => exact Or.inr rfl

theorem stage_progressPhase (s : RichSession) (v : JsVal) (now : Nat) :
    (progressPhase s v now).stage = s.stage ∨
      nextStageOpt s.stage = some ((progressPhase s v now).stage) := by
  unfold progressPhase
  split
  · exact stage_advanceRich s now
  · exact Or.inl rfl

theorem stage_mergeProgress (s : RichSession) (v : JsVal) (now : Nat) :
    (progressPhase (mergePhase s v) v now).stage = s.stage ∨
      nextStageOpt s.stage = some ((progressPhase (mergePhase s v) v now).stage) := by
  have hm := stage_mergePhase s v
  rcases stage_progressPhase (mergePhase s v) v now with h | h
  · exact Or.inl (h.trans hm)
  · rw [hm] at h
    exact Or.inr h

theorem stage_analyzeAndProgress (s : RichSession) (o : AnalysisOutcome) (now : Nat) :
    (analyzeAndProgressStage s o now).1.stage = s.stage ∨
      nextStageOpt s.stage = some ((analyzeAndProgressStage s o now).1.stage) := by
  cases o with
  | threw => exact Or.inl rfl
  | parsed v =>
      cases v with
      | vnull => exact Or.inl rfl
      | vstr a => exact stage_mergeProgress s (.vstr a) now
      | vnum a => exact stage_mergeProgress s (.vnum a) now
      | vbool a => exact stage_mergeProgress s (.vbool a) now
      | varr a => exact stage_mergeProgress s (.varr a) now
      | vobj a => exact stage_mergeProgress s (.vobj a) now

theorem stageIdx_nextStageOpt {st n : Stage} (h : nextStageOpt st = some n) :
    stageIdx n = stageIdx st + 1 := by
  cases st <;> simp only [nextStageOpt, Option.some.injEq, reduceCtorEq] at h <;>
    first
      | exact absurd h (by simp)
      | (subst h; rfl)

theorem stage_step_simple (s : SimpleSession) (op : SimpleOp) :
    stageIdx s.stage ≤ stageIdx (applySimpleOp s op).stage ∧
      stageIdx (applySimpleOp s op).stage ≤ stageIdx s.stage + 1 := by
  cases op with
  | upload a => exact ⟨le_refl _, Nat.le_succ _⟩
  | reportRequest => exact ⟨le_refl _, Nat.le_succ _⟩
  | chat message outcome t1 t2 =>
      cases outcome with
      | failed => exact ⟨le_refl _, Nat.le_succ _⟩
      | reply a =>
          show stageIdx s.stage ≤ stageIdx (updateSessionStage s.stage a) ∧
            stageIdx (updateSessionStage s.stage a) ≤ stageIdx s.stage + 1
          cases h : s.stage <;> simp only [updateSessionStage] <;>
            first
              | exact ⟨le_refl _, Nat.le_succ _⟩
              | (split <;> simp [stageIdx])

theorem stage_step_rich (s : RichSession) (op : RichOp) :
    stageIdx s.stage ≤ stageIdx (applyRichOp s op).stage ∧
      stageIdx (applyRichOp s op).stage ≤ stageIdx s.stage + 1 := by
  cases op with
  | reportRequest => exact ⟨le_refl _, Nat.le_succ _⟩
  | chat message outcome analysisOutcome t1 t2 now =>
      cases outcome with
      | failed =>
          have e : applyRichOp s (RichOp.chat message .failed analysisOutcome t1 t2 now)
              = addMessageR s .user message t1 := rfl
          rw [e, addMessageR_stage]
          exact ⟨le_refl _, Nat.le_succ _⟩
      | reply a =>
          have e : applyRichOp s (RichOp.chat message (.reply a) analysisOutcome t1 t2 now)
              = (analyzeAndProgressStage (addMessageR (addMessageR s .user message t1)
                  .assistant a t2) analysisOutcome now).1 := rfl
          rw [e]
          rcases stage_analyzeAndProgress (addMessageR (addMessageR s .user message t1)
              .assistant a t2) analysisOutcome now with h | h
          · rw [h, addMessageR_stage, addMessageR_stage]
            exact ⟨le_refl _, Nat.le_succ _⟩
          · rw [stageIdx_nextStageOpt h, addMessageR_stage, addMessageR_stage]
            exact ⟨Nat.le_succ _, le_refl _⟩

/-! Trace lemmas for claim C2. -/

theorem traceSimple_head (s : SimpleSession) (ops : List SimpleOp) :
    (traceSimple s ops).head? = some (stageIdx s.stage) := by
  cases ops <;> rfl

theorem traceRich_head (s : RichSession) (ops : List RichOp) :
    (traceRich s ops).head? = some (stageIdx s.stage) := by
  cases ops <;> rfl

theorem chain_traceSimple (ops : List SimpleOp) (s : SimpleSession) :
    List.Chain' (fun a b => a ≤ b ∧ b ≤ a + 1) (traceSimple s ops) := by
  induction ops generalizing s with
  | nil => simp [traceSimple]
  | cons op rest ih =>
      rw [traceSimple, List.chain'_cons']
      refine ⟨?_, ih _⟩
      intro b hb
      rw [traceSimple_head] at hb
      simp only [Option.mem_def, Option.some.injEq] at hb
      rw [← hb]
      exact stage_step_simple s op

theorem chain_traceRich (ops : List RichOp) (s : RichSession) :
    List.Chain' (fun a b => a ≤ b ∧ b ≤ a + 1) (traceRich s ops) := by
  induction ops generalizing s with
  | nil => simp [traceRich]
  | cons op rest ih =>
      rw [traceRich, List.chain'_cons']
      refine ⟨?_, ih _⟩
      intro b hb
      rw [traceRich_head] at hb
      simp only [Option.mem_def, Option.some.injEq] at hb
      rw [← hb]
      exact stage_step_rich s op

/-- Claim C1: the keyword policy's trigger table.  In each stage the
policy advances exactly when the lowercased response contains the listed
substrings, otherwise the stage is unchanged (stated as the if-form of the
table), and the two concrete example responses behave as the claim says
from ContextDiscovery. -/
theorem keywordTriggerTable (r : String) :
    updateSessionStage .contextDiscovery r =
      (if strHas (lowerStr r) phraseYesRight || strHas (lowerStr r) "correct" then
        Stage.objectiveDefinition else .contextDiscovery) ∧
    updateSessionStage .objectiveDefinition r =
      (if strHas (lowerStr r) "root cause" || strHas (lowerStr r) "problem statement" then
        Stage.methodIdeation else .objectiveDefinition) ∧
    updateSessionStage .methodIdeation r =
      (if strHas (lowerStr r) "method" &&
          (strHas (lowerStr r) "1." || strHas (lowerStr r) "2." || strHas (lowerStr r) "3.") then
        Stage.methodSelection else .methodIdeation) ∧
    updateSessionStage .methodSelection r =
      (if strHas (lowerStr r) "implementation plan" then Stage.implementationPlan
        else .methodSelection) ∧
    updateSessionStage .implementationPlan r =
      (if strHas (lowerStr r) "performance measures" && strHas (lowerStr r) "learning questions"
        then Stage.complete else .implementationPlan) ∧
    updateSessionStage .complete r = .complete ∧
    updateSessionStage .contextDiscovery
      ("Yes, that" ++ aposS ++ "s right, this matches my situation.") = .objectiveDefinition ∧
    updateSessionStage .contextDiscovery ("Let" ++ aposS ++ "s explore options.")
      = .contextDiscovery :=
  ⟨rfl, rfl, rfl, rfl, rfl, rfl, by decide, by decide⟩

/-- Claim C2: under both progression policies (and uploads and report
requests), every single operation moves the stage by zero or one step
forward in the fixed order, and the sequence of stage positions observed
over any run of operations is non-decreasing and step-wise bounded (each
adjacent pair differs by at most one).  The stage can only ever hold one
of the six enumerated values because every assignment in the source uses a
member of the `COMPAS_STAGES` table, which the embedding makes a closed
inductive type. -/
theorem stageMonotoneOneStep :
    (∀ (s : SimpleSession) (op : SimpleOp),
        stageIdx s.stage ≤ stageIdx (applySimpleOp s op).stage ∧
          stageIdx (applySimpleOp s op).stage ≤ stageIdx s.stage + 1) ∧
    (∀ (s : RichSession) (op : RichOp),
        stageIdx s.stage ≤ stageIdx (applyRichOp s op).stage ∧
          stageIdx (applyRichOp s op).stage ≤ stageIdx s.stage + 1) ∧
    (∀ (s : SimpleSession) (ops : List SimpleOp),
        List.Chain' (fun a b => a ≤ b ∧ b ≤ a + 1) (traceSimple s ops)) ∧
    (∀ (s : RichSession) (ops : List RichOp),
        List.Chain' (fun a b => a ≤ b ∧ b ≤ a + 1) (traceRich s ops)) :=
  ⟨stage_step_simple, stage_step_rich,
    fun s ops => chain_traceSimple ops s, fun s ops => chain_traceRich ops s⟩

/-- Claim C8: the keyword policy writes at most the `stage` field; every
other attribute of the session is unchanged by the policy itself (this
session class has no `stageData` table, so there is no stage-data field it
could write). -/
theorem keywordPolicyFrame (s : SimpleSession) (r : String) :
    (updateSessionStageS s r).sessionId = s.sessionId ∧
    (updateSessionStageS s r).conversationHistory = s.conversationHistory ∧
    (updateSessionStageS s r).contextFacts = s.contextFacts ∧
    (updateSessionStageS s r).contextArtifacts = s.contextArtifacts ∧
    (updateSessionStageS s r).objective = s.objective ∧
    (updateSessionStageS s r).methods = s.methods ∧
    (updateSessionStageS s r).chosenMethod = s.chosenMethod ∧
    (updateSessionStageS s r).implementationPlan = s.implementationPlan ∧
    (updateSessionStageS s r).performanceMeasures = s.performanceMeasures ∧
    (updateSessionStageS s r).learningQuestions = s.learningQuestions ∧
    (updateSessionStageS s r).uploadedFiles = s.uploadedFiles :=
  ⟨rfl, rfl, rfl, rfl, rfl, rfl, rfl, rfl, rfl, rfl, rfl⟩

/-- Claim C9: Complete is terminal.  The keyword policy's switch has no
case for it, and the assisted policy finds `nextStage` null in the
criteria table; in both policies the attempt to advance past Complete is a
no-op (both functions are total, so no error is raised). -/
theorem completeTerminal :
    (∀ r : String, updateSessionStage .complete r = .complete) ∧
    (∀ (s : RichSession) (o : AnalysisOutcome) (now : Nat), s.stage = .complete →
        (analyzeAndProgressStage s o now).1.stage = .complete) := by
  refine ⟨fun r => rfl, fun s o now h => ?_⟩
  rcases stage_analyzeAndProgress s o now with h1 | h1
  · rw [h1, h]
  · rw [h] at h1
    simp [nextStageOpt] at h1

/-- Witness for C9: a session already at Complete stays at Complete even
when the analysis result asks to progress. -/
theorem completeTerminal_witness :
    ({ RichSession.create "w9" 0 with stage := Stage.complete } : RichSession).stage
        = Stage.complete ∧
    (analyzeAndProgressStage { RichSession.create "w9" 0 with stage := Stage.complete }
        (.parsed (.vobj [("shouldProgress", .vbool true)])) 3).1.stage = Stage.complete :=
  ⟨rfl, completeTerminal.2 _ _ _ rfl⟩

/-- Claim C10: `updateStageData` called with a stage key that is absent
from the `stageData` table is a total no-op: the existence guard fails and
the whole session is returned unchanged. -/
theorem updateStageDataUnknownKeyNoop (s : RichSession) (k : String) (d : JsVal)
    (h : lookupAssoc s.stageData k = none) : updateStageData s k d = s := by
  unfold updateStageData
  rw [h]

/-- Witness for C10: merging under the key `bogus_stage` leaves a fresh
session unchanged. -/
theorem updateStageDataUnknownKeyNoop_witness :
    lookupAssoc (RichSession.create "w10" 0).stageData "bogus_stage" = none ∧
    updateStageData (RichSession.create "w10" 0) "bogus_stage"
        (.vobj [("rootProblem", .vstr "X")]) = RichSession.create "w10" 0 :=
  ⟨rfl, updateStageDataUnknownKeyNoop _ _ _ rfl⟩

/-! Claim C4: behaviour of the analysis step on failing and malformed
results. -/

/-- Schema of a well-formed analysis result, as the specification defines
it (section 6): an object with `shouldProgress` (boolean),
`progressReason` (string), `extractedData` (object),
`completionPercentage` (number 0-100) and `missingInformation` (list of
strings).  This is the specification's predicate; the source performs no
such validation. -/
def specWellFormedAnalysisResult : JsVal → Bool
  | .vobj kvs =>
      (match lookupAssoc kvs "shouldProgress" with
        | some (.vbool _) => true | _ => false)
      && (match lookupAssoc kvs "progressReason" with
        | some (.vstr _) => true | _ => false)
      && (match lookupAssoc kvs "extractedData" with
        | some (.vobj _) => true | _ => false)
      && (match lookupAssoc kvs "completionPercentage" with
        | some (.vnum n) => decide (0 ≤ n ∧ n ≤ 100) | _ => false)
      && (match lookupAssoc kvs "missingInformation" with
        | some (.varr xs) => xs.all (fun x => match x with | .vstr _ => true | _ => false)
        | _ => false)
  | _ => false

/-- A parseable but schema-violating analysis output: valid JSON, missing
every required key except `shouldProgress`. -/
def schemaViolatingResult : JsVal := .vobj [("shouldProgress", .vbool true)]

/-- Counterexample to C4 as stated: the analysis output
`{"shouldProgress": true}` is schema-violating (missing required keys), so
the claim says the session's stage must be unchanged — but the code never
validates the schema, reads the truthy `shouldProgress`, and advances the
stage. -/
theorem analysisSchemaViolationCounterexample :
    specWellFormedAnalysisResult schemaViolatingResult = false ∧
    (analyzeAndProgressStage (RichSession.create "c4" 0)
        (.parsed schemaViolatingResult) 7).1.stage
      ≠ (RichSession.create "c4" 0).stage := by
  exact ⟨rfl, by decide⟩

/-- Claim C4 (amended): when the analysis step throws (collaborator error
or non-JSON output) — and likewise when it parses to `null`, whose first
property read throws — the catch block leaves `stage` and `stageData`
byte-for-byte unchanged, the turn still completes with the user and
assistant entries appended, and the recorded analysis-failure indicator is
returned instead of an exception.  (Parseable but schema-violating JSON is
not treated as a failure: it is processed with JavaScript truthiness
semantics, as the counterexample shows.) -/
theorem analysisThrowNoop (s : RichSession) (message assistantText : String)
    (t1 t2 now : Nat) :
    (chatTurnAssisted s message (.reply assistantText) .threw t1 t2 now).1.stage = s.stage ∧
    (chatTurnAssisted s message (.reply assistantText) .threw t1 t2 now).1.stageData
      = s.stageData ∧
    (chatTurnAssisted s message (.reply assistantText) .threw t1 t2 now).1.conversationHistory
      = s.conversationHistory ++ [⟨.user, message, t1⟩, ⟨.assistant, assistantText, t2⟩] ∧
    (chatTurnAssisted s message (.reply assistantText) .threw t1 t2 now).2
      = .ok assistantText s.stage analysisFailureResult ∧
    analyzeAndProgressStage s (.parsed .vnull) now = (s, analysisFailureResult) := by
  refine ⟨rfl, rfl, ?_, rfl, rfl⟩
  show (s.conversationHistory ++ [⟨.user, message, t1⟩]) ++ [⟨.assistant, assistantText, t2⟩]
    = s.conversationHistory ++ [⟨.user, message, t1⟩, ⟨.assistant, assistantText, t2⟩]
  rw [List.append_assoc]
  rfl

/-! Claim C3: a well-formed analysis result is merged first and the stage
advanced second, both from the same result. -/

/-- The well-formed analysis result of claim C3: progress with extracted
root problem `X`. -/
def analysisRootProblemX : JsVal :=
  .vobj [("shouldProgress", .vbool true),
         ("progressReason", .vstr "Clear problem statement identified"),
         ("extractedData", .vobj [("rootProblem", .vstr "X")]),
         ("completionPercentage", .vnum 80),
         ("missingInformation", .varr [])]

theorem advanceRich_fromObjective (u : RichSession) (now : Nat)
    (hu : u.stage = .objectiveDefinition) (R : StageRecord)
    (hR : lookupAssoc u.stageData "objective_definition" = some R) :
    advanceRich u now
      = { u with stage := Stage.methodIdeation, stageData := setAssoc u.stageData "objective_definition" (setAssoc R "completed" (.vbool true)), stageStartTimes := setAssoc u.stageStartTimes "method_ideation" now } := by
  unfold advanceRich
  rw [hu]
  simp only [nextStageOpt, stageKey]
  unfold updateStageData
  rw [hR]
  rfl

/-- Claim C3: with the session in ObjectiveDefinition and the analysis
collaborator returning progress together with extracted
`rootProblem = "X"`, the turn first shallow-merges the extracted data into
the objective-definition record and then advances: afterwards the
objective-definition record holds `rootProblem = "X"` and
`completed = true`, and the stage is MethodIdeation. -/
theorem assistedMergeThenAdvance (s : RichSession) (record : StageRecord) (now : Nat)
    (hstage : s.stage = .objectiveDefinition)
    (hrec : lookupAssoc s.stageData "objective_definition" = some record) :
    (lookupAssoc (analyzeAndProgressStage s (.parsed analysisRootProblemX) now).1.stageData
        "objective_definition").bind (fun r2 => lookupAssoc r2 "rootProblem")
      = some (.vstr "X") ∧
    (lookupAssoc (analyzeAndProgressStage s (.parsed analysisRootProblemX) now).1.stageData
        "objective_definition").bind (fun r2 => lookupAssoc r2 "completed")
      = some (.vbool true) ∧
    (analyzeAndProgressStage s (.parsed analysisRootProblemX) now).1.stage
      = .methodIdeation := by
  have hkey : stageKey s.stage = "objective_definition" := by
    rw [hstage]
    rfl
  have hmerge : mergePhase s analysisRootProblemX
      = updateStageData s (stageKey s.stage) (.vobj [("rootProblem", .vstr "X")]) := rfl
  have hupd : updateStageData s (stageKey s.stage) (.vobj [("rootProblem", .vstr "X")])
      = { s with stageData := setAssoc s.stageData "objective_definition" (setAssoc record "rootProblem" (.vstr "X")) } := by
    rw [hkey]
    unfold updateStageData
    rw [hrec]
    rfl
  have hfirst : (analyzeAndProgressStage s (.parsed analysisRootProblemX) now).1
      = advanceRich ({ s with stageData := setAssoc s.stageData "objective_definition" (setAssoc record "rootProblem" (.vstr "X")) }) now := by
    show progressPhase (mergePhase s analysisRootProblemX) analysisRootProblemX now = _
    rw [hmerge.trans hupd]
    rfl
  have htotal : (analyzeAndProgressStage s (.parsed analysisRootProblemX) now).1
      = { s with stage := Stage.methodIdeation, stageData := setAssoc (setAssoc s.stageData "objective_definition" (setAssoc record "rootProblem" (.vstr "X"))) "objective_definition" (setAssoc (setAssoc record "rootProblem" (.vstr "X")) "completed" (.vbool true)), stageStartTimes := setAssoc s.stageStartTimes "method_ideation" now } := by
    rw [hfirst]
    exact advanceRich_fromObjective
      { s with stageData := setAssoc s.stageData "objective_definition" (setAssoc record "rootProblem" (.vstr "X")) }
      now hstage (setAssoc record "rootProblem" (.vstr "X"))
      (lookupAssoc_setAssoc_self s.stageData "objective_definition"
        (setAssoc record "rootProblem" (.vstr "X")))
  rw [htotal]
  refine ⟨?_, ?_, rfl⟩
  · show (lookupAssoc (setAssoc (setAssoc s.stageData "objective_definition"
        (setAssoc record "rootProblem" (.vstr "X"))) "objective_definition"
        (setAssoc (setAssoc record "rootProblem" (.vstr "X")) "completed" (.vbool true)))
        "objective_definition").bind (fun r2 => lookupAssoc r2 "rootProblem")
      = some (.vstr "X")
    rw [lookupAssoc_setAssoc_self]
    show lookupAssoc (setAssoc (setAssoc record "rootProblem" (.vstr "X")) "completed"
        (.vbool true)) "rootProblem" = some (.vstr "X")
    rw [lookupAssoc_setAssoc_ne _ _ _ _ (by decide), lookupAssoc_setAssoc_self]
  · show (lookupAssoc (setAssoc (setAssoc s.stageData "objective_definition"
        (setAssoc record "rootProblem" (.vstr "X"))) "objective_definition"
        (setAssoc (setAssoc record "rootProblem" (.vstr "X")) "completed" (.vbool true)))
        "objective_definition").bind (fun r2 => lookupAssoc r2 "completed")
      = some (.vbool true)
    rw [lookupAssoc_setAssoc_self]
    show lookupAssoc (setAssoc (setAssoc record "rootProblem" (.vstr "X")) "completed"
        (.vbool true)) "completed" = some (.vbool true)
    rw [lookupAssoc_setAssoc_self]

/-- Witness for C3: the concrete fresh session moved to
ObjectiveDefinition. -/
theorem assistedMergeThenAdvance_witness :
    (lookupAssoc (analyzeAndProgressStage
        { RichSession.create "w3" 0 with stage := Stage.objectiveDefinition }
        (.parsed analysisRootProblemX) 9).1.stageData "objective_definition").bind
        (fun r2 => lookupAssoc r2 "rootProblem") = some (.vstr "X") ∧
    (analyzeAndProgressStage
        { RichSession.create "w3" 0 with stage := Stage.objectiveDefinition }
        (.parsed analysisRootProblemX) 9).1.stage = Stage.methodIdeation :=
  ⟨(assistedMergeThenAdvance
      { RichSession.create "w3" 0 with stage := Stage.objectiveDefinition }
      [("rootProblem", .vstr ""), ("problemStatement", .vstr ""), ("completed", .vbool false)]
      9 rfl rfl).1,
   (assistedMergeThenAdvance
      { RichSession.create "w3" 0 with stage := Stage.objectiveDefinition }
      [("rootProblem", .vstr ""), ("problemStatement", .vstr ""), ("completed", .vbool false)]
      9 rfl rfl).2.2⟩

/-! Claim C6: chat-turn history shape and failure atomicity for the
keyword-policy servers. -/

/-- Inputs of one successful keyword-policy chat turn. -/
structure KeywordTurn where
  message : String
  reply : String
  t1 : Nat
  t2 : Nat
deriving DecidableEq

/-- Run a sequence of successful chat turns. -/
def runKeywordTurns (s : SimpleSession) : List KeywordTurn → SimpleSession
  | [] => s
  | i :: rest => runKeywordTurns (chatTurnKeyword s i.message (.reply i.reply) i.t1 i.t2).1 rest

theorem chatTurnKeyword_reply_history (s : SimpleSession) (m a : String) (t1 t2 : Nat) :
    (chatTurnKeyword s m (.reply a) t1 t2).1.conversationHistory
      = s.conversationHistory ++ [⟨.user, m, t1⟩, ⟨.assistant, a, t2⟩] := by
  show (s.conversationHistory ++ [⟨.user, m, t1⟩]) ++ [⟨.assistant, a, t2⟩]
    = s.conversationHistory ++ [⟨.user, m, t1⟩, ⟨.assistant, a, t2⟩]
  rw [List.append_assoc]
  rfl

theorem runKeywordTurns_length (inputs : List KeywordTurn) (s : SimpleSession) :
    (runKeywordTurns s inputs).conversationHistory.length
      = s.conversationHistory.length + 2 * inputs.length := by
  induction inputs generalizing s with
  | nil => simp [runKeywordTurns]
  | cons i rest ih =>
      rw [runKeywordTurns, ih, chatTurnKeyword_reply_history]
      simp [List.length_append]
      omega

/-- Claim C6: a successful keyword-policy chat turn appends exactly the
user entry then the assistant entry; after N successful turns from a
fresh session the history has exactly 2N entries; a turn whose external
completion call fails appends only the user entry, leaves the stage
unchanged, and answers with the 500 error response, which is distinct
from every normal turn response; and the two appended timestamps keep the
history's timestamp sequence non-decreasing whenever the clock reads are
ordered. -/
theorem chatTurnHistoryAtomicity :
    (∀ (s : SimpleSession) (m a : String) (t1 t2 : Nat),
        (chatTurnKeyword s m (.reply a) t1 t2).1.conversationHistory
          = s.conversationHistory ++ [⟨.user, m, t1⟩, ⟨.assistant, a, t2⟩]) ∧
    (∀ (sid : String) (inputs : List KeywordTurn),
        (runKeywordTurns (SimpleSession.create sid) inputs).conversationHistory.length
          = 2 * inputs.length) ∧
    (∀ (s : SimpleSession) (m : String) (t1 t2 : Nat),
        (chatTurnKeyword s m .failed t1 t2).1.conversationHistory
            = s.conversationHistory ++ [⟨.user, m, t1⟩] ∧
          (chatTurnKeyword s m .failed t1 t2).1.stage = s.stage ∧
          (chatTurnKeyword s m .failed t1 t2).2 = .serverError) ∧
    (∀ (msg : String) (st : Stage), ChatResponse.serverError ≠ .ok msg st) ∧
    (∀ (s : SimpleSession) (m a : String) (t1 t2 : Nat), t1 ≤ t2 →
        List.Chain' (fun x y => x ≤ y) (s.conversationHistory.map Message.timestamp) →
        (∀ u ∈ s.conversationHistory.map Message.timestamp, u ≤ t1) →
        List.Chain' (fun x y => x ≤ y)
          ((chatTurnKeyword s m (.reply a) t1 t2).1.conversationHistory.map
            Message.timestamp)) := by
  refine ⟨chatTurnKeyword_reply_history, ?_, ?_, ?_, ?_⟩
  · intro sid inputs
    rw [runKeywordTurns_length]
    show ([] : List Message).length + 2 * inputs.length = 2 * inputs.length
    simp
  · intro s m t1 t2
    exact ⟨rfl, rfl, rfl⟩
  · intro msg st h
    cases h
  · intro s m a t1 t2 h12 hmono hle
    rw [chatTurnKeyword_reply_history, List.map_append]
    rw [List.chain'_append]
    refine ⟨hmono, ?_, ?_⟩
    · simp [h12]
    · intro x hx y hy
      simp only [List.map_cons, List.map_nil, List.head?_cons, Option.mem_def,
        Option.some.injEq] at hy
      obtain ⟨hne, hxeq⟩ := List.mem_getLast?_eq_getLast hx
      have hx' : x ∈ s.conversationHistory.map Message.timestamp := by
        rw [hxeq]
        exact List.getLast_mem hne
      rw [← hy]
      exact hle x hx'

/-- Witness for C6: the timestamp conjunct applied to a fresh session with
clock reads 1 and 2. -/
theorem chatTurnHistoryAtomicity_witness :
    (1 ≤ 2) ∧
    List.Chain' (fun x y => x ≤ y)
      ((chatTurnKeyword (SimpleSession.create "w6") "hi" (.reply "ok") 1 2).1.conversationHistory.map
        Message.timestamp) :=
  ⟨by decide,
    chatTurnHistoryAtomicity.2.2.2.2 (SimpleSession.create "w6") "hi" "ok" 1 2
      (by decide) (by decide) (by decide)⟩

/-! Claim C7: report generation as a projection of the session. -/

/-- Counterexample to C7 as stated: `generateComprehensiveReport` embeds
`new Date()` in the report text (the elapsed-minutes figure), so two calls
on an unchanged session at different times yield different report text —
the report is not deterministic given the session content alone. -/
theorem reportTimeDependence :
    generateComprehensiveReport (RichSession.create "r7" 0) 0 "1/1/2025"
      ≠ generateComprehensiveReport (RichSession.create "r7" 0) 120000 "1/1/2025" := by
  decide

/-- Claim C7 (amended): both report generators are pure projections — they
read the session and never write it (in this embedding they are functions
returning only text) — and they are deterministic given the session
content TOGETHER WITH the generation moment: `generateComprehensiveReport`
depends on the session only through `stageData` and
`progressMetrics.startTime` (plus the two `new Date()` reads), and
`generateCOMPASReport` depends only on the listed content fields, so it is
deterministic given the session content alone. -/
theorem reportPureProjection :
    (∀ (s s' : RichSession) (now : Nat) (d : String),
        s.stageData = s'.stageData → s.progressStartTime = s'.progressStartTime →
        generateComprehensiveReport s now d = generateComprehensiveReport s' now d) ∧
    (∀ s s' : SimpleSession,
        s.objective = s'.objective → s.contextArtifacts = s'.contextArtifacts →
        s.contextFacts = s'.contextFacts → s.chosenMethod = s'.chosenMethod →
        s.implementationPlan = s'.implementationPlan →
        s.performanceMeasures = s'.performanceMeasures →
        s.learningQuestions = s'.learningQuestions →
        generateCOMPASReport s = generateCOMPASReport s') := by
  constructor
  · intro s s' now d h1 h2
    unfold generateComprehensiveReport
    rw [h1, h2]
  · intro s s' h1 h2 h3 h4 h5 h6 h7
    unfold generateCOMPASReport
    rw [h1, h2, h3, h4, h5, h6, h7]

/-- Witness for C7: two sessions differing only in history and stage get
identical comprehensive reports at the same generation moment. -/
theorem reportPureProjection_witness :
    ({ RichSession.create "w7" 0 with conversationHistory := [⟨.user, "hi", 1⟩], stage := Stage.complete } : RichSession).stageData = (RichSession.create "w7" 0).stageData ∧
    generateComprehensiveReport
        { RichSession.create "w7" 0 with conversationHistory := [⟨.user, "hi", 1⟩], stage := Stage.complete }
        5 "1/1/2025"
      = generateComprehensiveReport (RichSession.create "w7" 0) 5 "1/1/2025" :=
  ⟨rfl,
    reportPureProjection.1
      { RichSession.create "w7" 0 with conversationHistory := [⟨.user, "hi", 1⟩], stage := Stage.complete }
      (RichSession.create "w7" 0) 5 "1/1/2025" rfl rfl⟩

/-! Claim C5: the `completed` flag discipline. -/

/-- The `completed` entry of stage `k`'s record. -/
def completedFlag (s : RichSession) (k : String) : Option JsVal :=
  (lookupAssoc s.stageData k).bind (fun record => lookupAssoc record "completed")

/-- The extracted-data payload `{completed: true}`: valid JSON the
analysis collaborator may return, which the code merges unchecked. -/
def extractCompletedTrue : JsVal :=
  .vobj [("extractedData", .vobj [("completed", .vbool true)])]

/-- The extracted-data payload `{completed: false}`. -/
def extractCompletedFalse : JsVal :=
  .vobj [("extractedData", .vobj [("completed", .vbool false)])]

/-- Counterexample to C5 as stated: an analysis result whose
`extractedData` contains the key `completed` is merged into the current
stage's record unchecked.  One turn sets
`stageData.context_discovery.completed = true` with the stage still
ContextDiscovery (so the flag became true without the stage advancing
away), and a following turn resets it to false (so a true flag did not
remain true). -/
theorem completedFlagCounterexample :
    completedFlag (analyzeAndProgressStage (RichSession.create "c5" 0)
        (.parsed extractCompletedTrue) 1).1 "context_discovery" = some (.vbool true) ∧
    (analyzeAndProgressStage (RichSession.create "c5" 0)
        (.parsed extractCompletedTrue) 1).1.stage = .contextDiscovery ∧
    completedFlag (analyzeAndProgressStage
        (analyzeAndProgressStage (RichSession.create "c5" 0)
          (.parsed extractCompletedTrue) 1).1
        (.parsed extractCompletedFalse) 2).1 "context_discovery"
      = some (.vbool false) :=
  ⟨rfl, rfl, rfl⟩

/-- The property keys the merge phase of an analysis outcome writes into
the current stage's record. -/
def mergedKeys : AnalysisOutcome → List String
  | .threw => []
  | .parsed (.vobj kvs) =>
      match lookupAssoc kvs "extractedData" with
      | some extracted =>
          if jsTruthy extracted then (sourceProps extracted).map Prod.fst else []
      | none => []
  | .parsed _ => []

/-- An operation is clean when its analysis result does not smuggle the
key `completed` in through `extractedData`. -/
def cleanRichOp : RichOp → Prop
  | .chat _ _ analysisOutcome _ _ _ => "completed" ∉ mergedKeys analysisOutcome
  | .reportRequest => True

theorem updateStageData_none (s : RichSession) (k : String) (d : JsVal)
    (h : lookupAssoc s.stageData k = none) : updateStageData s k d = s := by
  unfold updateStageData
  rw [h]

theorem completedFlag_updateStageData_ne (s : RichSession) (key : String) (d : JsVal)
    (k : String) (h : k ≠ key) :
    completedFlag (updateStageData s key d) k = completedFlag s k := by
  unfold updateStageData
  cases hrec : lookupAssoc s.stageData key with
  | none => rfl
  | some record =>
      show (lookupAssoc (setAssoc s.stageData key (assignProps record d)) k).bind
          (fun r2 => lookupAssoc r2 "completed")
        = (lookupAssoc s.stageData k).bind (fun r2 => lookupAssoc r2 "completed")
      rw [lookupAssoc_setAssoc_ne _ _ _ _ h]

theorem completedFlag_updateStageData_clean (s : RichSession) (key : String) (d : JsVal)
    (h : "completed" ∉ (sourceProps d).map Prod.fst) (k : String) :
    completedFlag (updateStageData s key d) k = completedFlag s k := by
  unfold updateStageData
  cases hrec : lookupAssoc s.stageData key with
  | none => rfl
  | some record =>
      by_cases hk : k = key
      · subst hk
        show (lookupAssoc (setAssoc s.stageData k (assignProps record d)) k).bind
            (fun r2 => lookupAssoc r2 "completed")
          = (lookupAssoc s.stageData k).bind (fun r2 => lookupAssoc r2 "completed")
        rw [lookupAssoc_setAssoc_self, hrec]
        show lookupAssoc (assignProps record d) "completed" = lookupAssoc record "completed"
        exact lookupAssoc_assignProps_ne record d "completed" h
      · show (lookupAssoc (setAssoc s.stageData key (assignProps record d)) k).bind
            (fun r2 => lookupAssoc r2 "completed")
          = (lookupAssoc s.stageData k).bind (fun r2 => lookupAssoc r2 "completed")
        rw [lookupAssoc_setAssoc_ne _ _ _ _ hk]

theorem completedFlag_mergePhase (u : RichSession) (kvs : List (String × JsVal))
    (h : "completed" ∉ mergedKeys (.parsed (.vobj kvs))) (k : String) :
    completedFlag (mergePhase u (.vobj kvs)) k = completedFlag u k := by
  unfold mergePhase
  simp only [jsMember]
  cases hl : lookupAssoc kvs "extractedData" with
  | none => rfl
  | some extracted =>
      by_cases ht : jsTruthy extracted = true
      · simp only [ht, if_true]
        apply completedFlag_updateStageData_clean
        have e : mergedKeys (.parsed (.vobj kvs)) = (sourceProps extracted).map Prod.fst := by
          simp only [mergedKeys]
          rw [hl]
          simp [ht]
        rw [e] at h
        exact h
      · simp only [ht, if_false]
        rfl

theorem stage_advanceRich_of_next (s : RichSession) (now : Nat) (n : Stage)
    (hn : nextStageOpt s.stage = some n) : (advanceRich s now).stage = n := by
  unfold advanceRich
  rw [hn]

theorem advanceRich_of_none (s : RichSession) (now : Nat)
    (hn : nextStageOpt s.stage = none) : advanceRich s now = s := by
  unfold advanceRich
  rw [hn]

theorem completedFlag_advanceRich_ne (s : RichSession) (now : Nat) (k : String)
    (h : k ≠ stageKey s.stage) :
    completedFlag (advanceRich s now) k = completedFlag s k := by
  unfold advanceRich
  cases hn : nextStageOpt s.stage with
  | none => rfl
  | some n =>
      show completedFlag (updateStageData s (stageKey s.stage)
          (.vobj [("completed", .vbool true)])) k = completedFlag s k
      exact completedFlag_updateStageData_ne s (stageKey s.stage) _ k h

theorem completedFlag_advanceRich_true (s : RichSession) (now : Nat) (n : Stage)
    (record : StageRecord) (hn : nextStageOpt s.stage = some n)
    (hrec : lookupAssoc s.stageData (stageKey s.stage) = some record) :
    completedFlag (advanceRich s now) (stageKey s.stage) = some (.vbool true) := by
  unfold advanceRich
  rw [hn]
  show (lookupAssoc (updateStageData s (stageKey s.stage)
      (.vobj [("completed", .vbool true)])).stageData (stageKey s.stage)).bind
      (fun r2 => lookupAssoc r2 "completed")
    = some (.vbool true)
  unfold updateStageData
  rw [hrec]
  show (lookupAssoc (setAssoc s.stageData (stageKey s.stage)
      (assignProps record (.vobj [("completed", .vbool true)]))) (stageKey s.stage)).bind
      (fun r2 => lookupAssoc r2 "completed")
    = some (.vbool true)
  rw [lookupAssoc_setAssoc_self]
  show lookupAssoc (setAssoc record "completed" (.vbool true)) "completed"
    = some (.vbool true)
  rw [lookupAssoc_setAssoc_self]

theorem completedFlag_analyze (u : RichSession) (v : JsVal) (now : Nat)
    (hclean : "completed" ∉ mergedKeys (.parsed v)) (k : String) :
    completedFlag (analyzeAndProgressStage u (.parsed v) now).1 k = completedFlag u k ∨
    (stageKey u.stage = k ∧
      completedFlag (analyzeAndProgressStage u (.parsed v) now).1 k = some (.vbool true) ∧
      stageIdx (analyzeAndProgressStage u (.parsed v) now).1.stage = stageIdx u.stage + 1) := by
  cases v with
  | vnull => exact Or.inl rfl
  | vstr x => exact Or.inl rfl
  | vnum x => exact Or.inl rfl
  | vbool x => exact Or.inl rfl
  | varr x => exact Or.inl rfl
  | vobj kvs =>
      have hm : completedFlag (mergePhase u (.vobj kvs)) k = completedFlag u k :=
        completedFlag_mergePhase u kvs hclean k
      have hMs : (mergePhase u (.vobj kvs)).stage = u.stage := stage_mergePhase _ _
      by_cases hp : optTruthy (jsMember (.vobj kvs) "shouldProgress") = true
      · have e2 : (analyzeAndProgressStage u (.parsed (.vobj kvs)) now).1
            = advanceRich (mergePhase u (.vobj kvs)) now := by
          show progressPhase (mergePhase u (.vobj kvs)) (.vobj kvs) now = _
          unfold progressPhase
          simp [hp]
        rw [e2]
        cases hn : nextStageOpt (mergePhase u (.vobj kvs)).stage with
        | none =>
            rw [advanceRich_of_none _ _ hn, hm]
            exact Or.inl rfl
        | some n =>
            by_cases hk : k = stageKey u.stage
            · cases hrec : lookupAssoc (mergePhase u (.vobj kvs)).stageData
                  (stageKey (mergePhase u (.vobj kvs)).stage) with
              | none =>
                  have e3 : advanceRich (mergePhase u (.vobj kvs)) now
                      = { mergePhase u (.vobj kvs) with stage := n, stageStartTimes := setAssoc (mergePhase u (.vobj kvs)).stageStartTimes (stageKey n) now } := by
                    unfold advanceRich
                    rw [hn, updateStageData_none _ _ _ hrec]
                  rw [e3]
                  have e4 : completedFlag { mergePhase u (.vobj kvs) with stage := n, stageStartTimes := setAssoc (mergePhase u (.vobj kvs)).stageStartTimes (stageKey n) now } k = completedFlag (mergePhase u (.vobj kvs)) k := rfl
                  rw [e4, hm]
                  exact Or.inl rfl
              | some record =>
                  refine Or.inr ⟨hk.symm, ?_, ?_⟩
                  · have e5 := completedFlag_advanceRich_true (mergePhase u (.vobj kvs))
                      now n record hn hrec
                    rw [hMs] at e5
                    rw [hk]
                    exact e5
                  · rw [stage_advanceRich_of_next _ _ _ hn, stageIdx_nextStageOpt hn, hMs]
            · have e6 : completedFlag (advanceRich (mergePhase u (.vobj kvs)) now) k
                  = completedFlag (mergePhase u (.vobj kvs)) k := by
                apply completedFlag_advanceRich_ne
                rw [hMs]
                exact hk
              rw [e6, hm]
              exact Or.inl rfl
      · have e7 : (analyzeAndProgressStage u (.parsed (.vobj kvs)) now).1
            = mergePhase u (.vobj kvs) := by
          show progressPhase (mergePhase u (.vobj kvs)) (.vobj kvs) now = _
          unfold progressPhase
          simp [hp]
        rw [e7, hm]
        exact Or.inl rfl

theorem completedFlag_step (s : RichSession) (op : RichOp) (hc : cleanRichOp op)
    (k : String) :
    completedFlag (applyRichOp s op) k = completedFlag s k ∨
    (stageKey s.stage = k ∧ completedFlag (applyRichOp s op) k = some (.vbool true) ∧
      stageIdx (applyRichOp s op).stage = stageIdx s.stage + 1) := by
  cases op with
  | reportRequest => exact Or.inl rfl
  | chat m outcome ao t1 t2 now =>
      cases outcome with
      | failed => exact Or.inl rfl
      | reply a =>
          cases ao with
          | threw => exact Or.inl rfl
          | parsed v =>
              exact completedFlag_analyze
                (addMessageR (addMessageR s .user m t1) .assistant a t2) v now hc k

theorem completedFlag_run (ops : List RichOp) :
    ∀ (s : RichSession), (∀ op ∈ ops, cleanRichOp op) → ∀ k : String,
      completedFlag s k = some (.vbool true) →
      completedFlag (runRichOps s ops) k = some (.vbool true) := by
  induction ops with
  | nil =>
      intro s _ k h
      exact h
  | cons op rest ih =>
      intro s hclean k h
      rw [runRichOps]
      apply ih _ (fun o ho => hclean o (List.mem_cons_of_mem _ ho)) k
      rcases completedFlag_step s op (hclean op (List.mem_cons_self _ _)) k with h2 | ⟨_, h2, _⟩
      · rw [h2]
        exact h
      · exact h2

/-- Claim C5 (amended): provided no analysis result smuggles the key
`completed` in through `extractedData` (the code does not guard against
that, as the counterexample shows), the flag discipline holds: the
`completed` flag of a stage becomes true only on the operation in which
that stage is the current one and the stage advances one step away from
it, and once true it remains true under every subsequent clean
operation. -/
theorem completedFlagDiscipline :
    (∀ (s : RichSession) (op : RichOp), cleanRichOp op → ∀ k : String,
        completedFlag s k ≠ some (.vbool true) →
        completedFlag (applyRichOp s op) k = some (.vbool true) →
        stageKey s.stage = k ∧ stageIdx (applyRichOp s op).stage = stageIdx s.stage + 1) ∧
    (∀ (s : RichSession) (ops : List RichOp), (∀ op ∈ ops, cleanRichOp op) → ∀ k : String,
        completedFlag s k = some (.vbool true) →
        completedFlag (runRichOps s ops) k = some (.vbool true)) := by
  constructor
  · intro s op hc k h0 h1
    rcases completedFlag_step s op hc k with h | ⟨hkey, _, hidx⟩
    · rw [h] at h1
      exact absurd h1 h0
    · exact ⟨hkey, hidx⟩
  · intro s ops hclean k h
    exact completedFlag_run ops s hclean k h

/-- Witness for C5: a session that just advanced away from
ContextDiscovery keeps its true `completed` flag across a further clean
turn whose analysis call threw. -/
theorem completedFlagDiscipline_witness :
    completedFlag (analyzeAndProgressStage (RichSession.create "w5" 0)
        (.parsed (.vobj [("shouldProgress", .vbool true)])) 1).1 "context_discovery"
      = some (.vbool true) ∧
    completedFlag (runRichOps (analyzeAndProgressStage (RichSession.create "w5" 0)
        (.parsed (.vobj [("shouldProgress", .vbool true)])) 1).1
        [RichOp.chat "more" (.reply "noted") .threw 2 3 4]) "context_discovery"
      = some (.vbool true) :=
  ⟨rfl,
    completedFlagDiscipline.2 _ [RichOp.chat "more" (.reply "noted") .threw 2 3 4]
      (fun o ho => by
        rcases List.mem_singleton.mp ho with rfl
        intro hmem
        simp [mergedKeys] at hmem)
      "context_discovery" rfl⟩
